import Mathlib

/-!
Shallow embedding of the KazooGame ECS program (src/src/main.rs).

Entities are natural-number identifiers.  Each component store is an
association list from entity id to component value, in insertion order
(the program only ever inserts entities with ascending ids, matching the
ascending-id iteration order of the original store implementation).
The World bundles the four registered stores, the entity registry
(nextEntity counter and alive list) and the deferred-destruction queue.

The storage/query/scheduling engine itself comes from the `specs` library,
which is not part of the repository sources; the store, join, queue_destroy
and maintain operations are therefore modelled from the spec (their doc
comments say so).  The game-level operations (try_move_player, player_input,
LeftWalker, tick, run_systems, the initial world built by main) are
translated directly from src/src/main.rs.
-/

namespace KazooGame

abbrev Entity := Nat

/-- A component store: association list from entity id to component value.
Modelled from the spec: a sparse associative map from entity identifier to
component value, keys unique, deterministic iteration order. -/
abbrev Store (α : Type) := List (Entity × α)

namespace Store

/-- Modelled from the spec: `get(Entity) -> Option<&T>`. -/
def get {α : Type} : Store α → Entity → Option α
  | [], _ => none
  | p :: rest, e => if p.1 = e then some p.2 else get rest e

/-- Modelled from the spec: `S.contains(E)` (presence of a component). -/
def contains {α : Type} (s : Store α) (e : Entity) : Bool :=
  (get s e).isSome

/-- Entities present in a store (its key set, in order). -/
def entities {α : Type} (s : Store α) : List Entity :=
  s.map Prod.fst

/-- Modelled from the spec: `insert(Entity, T)` overwrites any existing
value for that entity. -/
def insert {α : Type} (s : Store α) (e : Entity) (v : α) : Store α :=
  if contains s e then
    s.map (fun p => if p.1 = e then (p.1, v) else p)
  else
    s ++ [(e, v)]

/-- Pointwise in-place update of every entry; used to embed the
mutate-while-joining loops of the source. -/
def update {α : Type} (s : Store α) (f : Entity → α → α) : Store α :=
  s.map (fun p => (p.1, f p.1 p.2))

/-- Modelled from the spec: maintain removes a destroyed entity's
components from every store; this removes all entries of the listed dead
entities. -/
def removeAll {α : Type} (s : Store α) (dead : List Entity) : Store α :=
  s.filter (fun p => decide (p.1 ∉ dead))

/-- The store invariant from the spec: keys are unique. -/
abbrev NodupKeys {α : Type} (s : Store α) : Prop :=
  (s.map Prod.fst).Nodup

end Store

/-- Modelled from the spec: `join(S1, S2)` produces, for each entity
present in both stores, the entity together with both component values,
in the first store's iteration order. -/
def join2 {α β : Type} (a : Store α) (b : Store β) : List (Entity × α × β) :=
  a.filterMap (fun p => (Store.get b p.1).map (fun v => (p.1, p.2, v)))

/-- Modelled from the spec: the entity set of an n-ary join — the entities
present in every listed store (given by its key list). -/
def joinKeys : List (List Entity) → List Entity
  | [] => []
  | s :: rest => s.filter (fun e => rest.all (fun t => t.contains e))

/-- Position component (src/src/main.rs, struct Position). -/
structure Position where
  x : Int
  y : Int
deriving DecidableEq, Repr

/-- Colors used by main; rltk RGB values abstracted to their names. -/
inductive Color
  | yellow
  | red
  | black
deriving DecidableEq, Repr

/-- Renderable component (src/src/main.rs, struct Renderable); the glyph
is its cp437 code. -/
structure Renderable where
  glyph : Nat
  fg : Color
  bg : Color
deriving DecidableEq, Repr

/-- The World: the four registered stores (Position, Renderable, LeftMover,
Player — LeftMover and Player are data-less markers, stored as Unit), the
entity registry, and the deferred-destruction queue. -/
structure World where
  nextEntity : Entity
  alive : List Entity
  positions : Store Position
  renderables : Store Renderable
  leftMovers : Store Unit
  players : Store Unit
  pendingDestroy : List Entity

def World.empty : World :=
  { nextEntity := 0, alive := [], positions := [], renderables := [],
    leftMovers := [], players := [], pendingDestroy := [] }

/-- Modelled from the spec: `queue_destroy(Entity)` — deferred removal,
applied only during `maintain()`. -/
def World.queue_destroy (w : World) (e : Entity) : World :=
  { w with pendingDestroy := w.pendingDestroy ++ [e] }

/-- Modelled from the spec: `maintain()` applies all queued destructions
(removing each destroyed entity and its components from every store and
from the registry) in one batch, then clears the queue. -/
def World.maintain (w : World) : World :=
  { nextEntity := w.nextEntity,
    alive := w.alive.filter (fun e => decide (e ∉ w.pendingDestroy)),
    positions := w.positions.removeAll w.pendingDestroy,
    renderables := w.renderables.removeAll w.pendingDestroy,
    leftMovers := w.leftMovers.removeAll w.pendingDestroy,
    players := w.players.removeAll w.pendingDestroy,
    pendingDestroy := [] }

/-- Modelled from the spec: the entity builder returned by
`create_entity()`, accumulating component attachments. -/
structure EntityBuilder where
  world : World
  id : Entity
  pos : Option Position
  rend : Option Renderable
  lefty : Bool
  player : Bool

/-- Modelled from the spec: `create_entity()` allocates a fresh id and
returns a builder. -/
def World.create_entity (w : World) : EntityBuilder :=
  { world := { w with
                nextEntity := w.nextEntity + 1,
                alive := w.alive ++ [w.nextEntity] },
    id := w.nextEntity, pos := none, rend := none,
    lefty := false, player := false }

def EntityBuilder.withPosition (b : EntityBuilder) (p : Position) : EntityBuilder :=
  { b with pos := some p }

def EntityBuilder.withRenderable (b : EntityBuilder) (r : Renderable) : EntityBuilder :=
  { b with rend := some r }

def EntityBuilder.withLeftMover (b : EntityBuilder) : EntityBuilder :=
  { b with lefty := true }

def EntityBuilder.withPlayer (b : EntityBuilder) : EntityBuilder :=
  { b with player := true }

/-- Modelled from the spec: `build()` registers the entity and inserts all
accumulated components. -/
def EntityBuilder.build (b : EntityBuilder) : World :=
  { b.world with
    positions := match b.pos with
      | some p => b.world.positions.insert b.id p
      | none => b.world.positions,
    renderables := match b.rend with
      | some r => b.world.renderables.insert b.id r
      | none => b.world.renderables,
    leftMovers := if b.lefty then b.world.leftMovers.insert b.id () else b.world.leftMovers,
    players := if b.player then b.world.players.insert b.id () else b.world.players }

/-- The world built by main (src/src/main.rs lines 59–81): one Player
entity at (40,25) with a yellow `@` (cp437 64), then ten LeftMover
entities at (i*7, 20) with a red smiley (cp437 1). -/
def initialWorld : World :=
  let w := World.empty
  let w := ((((w.create_entity).withPosition { x := 40, y := 25 }).withRenderable
      { glyph := 64, fg := Color.yellow, bg := Color.black }).withPlayer).build
  (List.range 10).foldl (fun w i =>
    ((((w.create_entity).withPosition { x := (i : Int) * 7, y := 20 }).withRenderable
        { glyph := 1, fg := Color.red, bg := Color.black }).withLeftMover).build) w

/-- try_move_player (src/src/main.rs lines 86–94): for every entity in the
join of the Player and Position stores, set
`x = min(79, max(0, x + delta_x))`, `y = min(49, max(0, y + delta_y))`. -/
def try_move_player (delta_x delta_y : Int) (w : World) : World :=
  { w with positions := w.positions.update (fun e pos =>
      if w.players.contains e then
        { x := min 79 (max 0 (pos.x + delta_x)),
          y := min 49 (max 0 (pos.y + delta_y)) }
      else pos) }

/-- Key events: the four movement keys the program recognizes, and all
other virtual key codes (represented by their code). -/
inductive Key
  | Left
  | Right
  | Up
  | Down
  | Other (code : Nat)
deriving DecidableEq, Repr

/-- player_input (src/src/main.rs lines 96–107): map the key event to a
unit delta and call try_move_player; no key, or any unrecognized key, does
nothing. -/
def player_input (key : Option Key) (w : World) : World :=
  match key with
  | none => w
  | some Key.Left => try_move_player (-1) 0 w
  | some Key.Right => try_move_player 1 0 w
  | some Key.Up => try_move_player 0 (-1) w
  | some Key.Down => try_move_player 0 1 w
  | some (Key.Other _) => w

/-- LeftWalker::run (src/src/main.rs lines 126–136): for every entity in
the join of the LeftMover and Position stores, `pos.x -= 1; if pos.x < 0 {
pos.x = 79; }`. -/
def LeftWalker.run (w : World) : World :=
  { w with positions := w.positions.update (fun e pos =>
      if w.leftMovers.contains e then
        { pos with x := if pos.x - 1 < 0 then 79 else pos.x - 1 }
      else pos) }

/-- run_systems (src/src/main.rs lines 139–145): run the registered
systems (just LeftWalker) in registration order, then maintain(). -/
def run_systems (w : World) : World :=
  (LeftWalker.run w).maintain

/-- One tick (src/src/main.rs lines 109–123): player_input, then
run_systems; the renderer afterwards reads the Position/Renderable join. -/
def tick (key : Option Key) (w : World) : World :=
  run_systems (player_input key w)

/-- The render-time join of the Position and Renderable stores
(src/src/main.rs lines 116–121). -/
def renderJoin (w : World) : List (Entity × Position × Renderable) :=
  join2 w.positions w.renderables

/-- Iterated ticks with a list of key inputs. -/
def ticks (keys : List (Option Key)) (w : World) : World :=
  keys.foldl (fun w k => tick k w) w

/-- Observable phases of one tick, for the ordering claim: the direct
player-input mutation, the run of the i-th registered system, and
maintain. -/
inductive Ev
  | input
  | system (idx : Nat)
  | maintainEv
deriving DecidableEq, Repr

/-- player_input instrumented with its event trace. -/
def player_inputT (key : Option Key) (w : World) : World × List Ev :=
  match key with
  | none => (w, [])
  | some Key.Left => (try_move_player (-1) 0 w, [Ev.input])
  | some Key.Right => (try_move_player 1 0 w, [Ev.input])
  | some Key.Up => (try_move_player 0 (-1) w, [Ev.input])
  | some Key.Down => (try_move_player 0 1 w, [Ev.input])
  | some (Key.Other _) => (w, [])

/-- run_systems instrumented with its event trace: system 0 (LeftWalker,
the only registered system) runs, then maintain. -/
def run_systemsT (w : World) : World × List Ev :=
  ((LeftWalker.run w).maintain, [Ev.system 0, Ev.maintainEv])

/-- One tick instrumented with its event trace, in execution order. -/
def tickT (key : Option Key) (w : World) : World × List Ev :=
  let r1 := player_inputT key w
  let r2 := run_systemsT r1.1
  (r2.1, r1.2 ++ r2.2)

/-- Every stored position is on the 80×50 screen: 0 ≤ x ≤ 79, 0 ≤ y ≤ 49. -/
def InBounds (w : World) : Prop :=
  ∀ pr ∈ w.positions, 0 ≤ pr.2.x ∧ pr.2.x ≤ 79 ∧ 0 ≤ pr.2.y ∧ pr.2.y ≤ 49

instance decidableInBounds (w : World) : Decidable (InBounds w) := by
  unfold InBounds
  exact List.decidableBAll _ _

/-! ### Store lemmas -/

theorem Store.get_update {α : Type} (s : Store α) (f : Entity → α → α) (e : Entity) :
    Store.get (Store.update s f) e = (Store.get s e).map (f e) := by
  induction s with
  | nil => rfl
  | cons p rest ih =>
    by_cases h : p.1 = e
    · subst h
      simp [Store.update, Store.get]
    · simp only [Store.update] at ih ⊢
      simp [Store.get, h, ih]

theorem Store.get_mem {α : Type} {s : Store α} {e : Entity} {v : α}
    (h : Store.get s e = some v) : (e, v) ∈ s := by
  induction s with
  | nil => simp [Store.get] at h
  | cons p rest ih =>
    obtain ⟨a, b⟩ := p
    by_cases hp : a = e
    · subst hp
      simp [Store.get] at h
      subst h
      exact List.mem_cons_self _ _
    · simp [Store.get, hp] at h
      exact List.mem_cons_of_mem _ (ih h)

theorem Store.get_of_mem {α : Type} {s : Store α} {e : Entity} {v : α}
    (hs : Store.NodupKeys s) (h : (e, v) ∈ s) : Store.get s e = some v := by
  induction s with
  | nil => simp at h
  | cons p rest ih =>
    obtain ⟨a, b⟩ := p
    simp only [Store.NodupKeys, List.map_cons, List.nodup_cons] at hs
    rcases List.mem_cons.mp h with h1 | h1
    · injection h1 with he hv
      subst he; subst hv
      simp [Store.get]
    · have hne : a ≠ e := by
        intro he
        subst he
        exact hs.1 (List.mem_map.mpr ⟨(a, v), h1, rfl⟩)
      simp only [Store.get, if_neg hne]
      exact ih hs.2 h1

theorem Store.get_eq_none_iff {α : Type} (s : Store α) (e : Entity) :
    Store.get s e = none ↔ e ∉ Store.entities s := by
  induction s with
  | nil => simp [Store.get, Store.entities]
  | cons p rest ih =>
    obtain ⟨a, b⟩ := p
    by_cases hp : a = e
    · subst hp
      simp [Store.get, Store.entities]
    · have hp2 : ¬e = a := fun hh => hp hh.symm
      simp [Store.get, Store.entities, hp, hp2, ih]

theorem Store.mem_removeAll {α : Type} {s : Store α} {dead : List Entity}
    {p : Entity × α} (h : p ∈ Store.removeAll s dead) : p ∈ s ∧ p.1 ∉ dead := by
  have h2 := List.mem_filter.mp h
  exact ⟨h2.1, by simpa using h2.2⟩

theorem Store.get_removeAll_of_mem {α : Type} (s : Store α) (dead : List Entity)
    (e : Entity) (h : e ∈ dead) :
    Store.get (Store.removeAll s dead) e = none := by
  rw [Store.get_eq_none_iff]
  intro hmem
  obtain ⟨p, hp, hpe⟩ := List.mem_map.mp hmem
  exact (Store.mem_removeAll hp).2 (by rw [hpe]; exact h)

theorem Store.removeAll_nil {α : Type} (s : Store α) : Store.removeAll s [] = s := by
  simp [Store.removeAll]

theorem Store.removeAll_snoc_of_not_mem {α : Type} (s : Store α) (pd : List Entity)
    (e : Entity) (h : e ∉ Store.entities s) :
    Store.removeAll s (pd ++ [e]) = Store.removeAll s pd := by
  apply List.filter_congr
  intro p hp
  have hne : p.1 ≠ e := by
    intro hq
    exact h (hq ▸ List.mem_map.mpr ⟨p, hp, rfl⟩)
  simp [List.mem_append, hne]

theorem Store.mem_update {α : Type} {s : Store α} {f : Entity → α → α}
    {p : Entity × α} (h : p ∈ Store.update s f) :
    ∃ q ∈ s, p = (q.1, f q.1 q.2) := by
  obtain ⟨q, hq, hqe⟩ := List.mem_map.mp h
  exact ⟨q, hq, hqe.symm⟩

theorem mem_join2_iff {α β : Type} (a : Store α) (b : Store β) (e : Entity)
    (x : α) (y : β) :
    (e, x, y) ∈ join2 a b ↔ (e, x) ∈ a ∧ Store.get b e = some y := by
  simp only [join2, List.mem_filterMap]
  constructor
  · rintro ⟨⟨pe, pv⟩, hp, hf⟩
    rw [Option.map_eq_some'] at hf
    obtain ⟨v, hv, hev⟩ := hf
    injection hev with h1 h23
    injection h23 with h2 h3
    subst h1; subst h2; subst h3
    exact ⟨hp, hv⟩
  · rintro ⟨hmem, hget⟩
    exact ⟨(e, x), hmem, by simp [hget]⟩

theorem mem_joinKeys_iff (s : List Entity) (rest : List (List Entity)) (e : Entity) :
    e ∈ joinKeys (s :: rest) ↔ e ∈ s ∧ ∀ t ∈ rest, e ∈ t := by
  simp [joinKeys, List.mem_filter, List.all_eq_true, List.elem_iff]

/-! ### Screen-bounds invariant lemmas -/

theorem try_move_player_positions (delta_x delta_y : Int) (w : World) :
    (try_move_player delta_x delta_y w).positions =
      w.positions.update (fun e pos =>
        if w.players.contains e then
          { x := min 79 (max 0 (pos.x + delta_x)),
            y := min 49 (max 0 (pos.y + delta_y)) }
        else pos) := rfl

theorem leftWalker_positions (w : World) :
    (LeftWalker.run w).positions =
      w.positions.update (fun e pos =>
        if w.leftMovers.contains e then
          { pos with x := if pos.x - 1 < 0 then 79 else pos.x - 1 }
        else pos) := rfl

theorem inBounds_try_move_player (delta_x delta_y : Int) {w : World}
    (h : InBounds w) : InBounds (try_move_player delta_x delta_y w) := by
  intro pr hpr
  rw [try_move_player_positions] at hpr
  obtain ⟨q, hq, rfl⟩ := Store.mem_update hpr
  dsimp only
  by_cases hc : w.players.contains q.1 = true
  · rw [if_pos hc]
    exact ⟨le_min (by norm_num) (le_max_left _ _), min_le_left _ _,
           le_min (by norm_num) (le_max_left _ _), min_le_left _ _⟩
  · rw [if_neg hc]
    exact h q hq

theorem inBounds_leftwalker {w : World} (h : InBounds w) :
    InBounds (LeftWalker.run w) := by
  intro pr hpr
  rw [leftWalker_positions] at hpr
  obtain ⟨q, hq, rfl⟩ := Store.mem_update hpr
  obtain ⟨hx0, hx79, hy0, hy49⟩ := h q hq
  dsimp only
  by_cases hc : w.leftMovers.contains q.1 = true
  · rw [if_pos hc]
    dsimp only
    by_cases hneg : q.2.x - 1 < 0
    · simp only [if_pos hneg]
      omega
    · simp only [if_neg hneg]
      omega
  · rw [if_neg hc]
    exact h q hq

theorem inBounds_maintain {w : World} (h : InBounds w) : InBounds w.maintain := by
  intro pr hpr
  exact h pr (Store.mem_removeAll hpr).1

theorem inBounds_player_input (key : Option Key) {w : World} (h : InBounds w) :
    InBounds (player_input key w) := by
  cases key with
  | none => exact h
  | some k =>
    cases k with
    | Left => exact inBounds_try_move_player _ _ h
    | Right => exact inBounds_try_move_player _ _ h
    | Up => exact inBounds_try_move_player _ _ h
    | Down => exact inBounds_try_move_player _ _ h
    | Other c => exact h

theorem inBounds_tick (key : Option Key) {w : World} (h : InBounds w) :
    InBounds (tick key w) :=
  inBounds_maintain (inBounds_leftwalker (inBounds_player_input key h))

theorem inBounds_ticks (keys : List (Option Key)) {w : World} (h : InBounds w) :
    InBounds (ticks keys w) := by
  induction keys generalizing w with
  | nil => exact h
  | cons k rest ih => exact ih (inBounds_tick k h)

theorem inBounds_initial : InBounds initialWorld := by decide

/-! ### Claim theorems -/

/-- C1: for every entity in both the Player and Position stores,
try_move_player with a requested (delta_x, delta_y) sets its position to
x = clamp(x + delta_x, 0, 79) = min 79 (max 0 (x + delta_x)) and
y = clamp(y + delta_y, 0, 49) = min 49 (max 0 (y + delta_y)); values
saturate at the screen boundaries (0/79 and 0/49) and never wrap. -/
theorem C1_try_move_player_clamps (w : World) (e : Entity) (p : Position)
    (delta_x delta_y : Int)
    (hpl : w.players.contains e = true)
    (hpos : Store.get w.positions e = some p) :
    Store.get (try_move_player delta_x delta_y w).positions e =
      some { x := min 79 (max 0 (p.x + delta_x)),
             y := min 49 (max 0 (p.y + delta_y)) } := by
  rw [try_move_player_positions, Store.get_update, hpos]
  simp [hpl]

/-- C1 witness: the Player entity of the initial world, at (40,25), given
delta (-100, 100), saturates to the clamped corner (0,49) and does not
wrap. -/
theorem C1_witness :
    initialWorld.players.contains 0 = true ∧
    Store.get initialWorld.positions 0 = some { x := 40, y := 25 } ∧
    Store.get (try_move_player (-100) 100 initialWorld).positions 0 =
      some { x := 0, y := 49 } := by
  refine ⟨by decide, by decide, ?_⟩
  have h := C1_try_move_player_clamps initialWorld 0 { x := 40, y := 25 }
    (-100) 100 (by decide) (by decide)
  rw [h]
  decide

/-- C2: one LeftWalker run decrements the x coordinate of every entity in
both the LeftMover and Position stores by 1, wrapping a negative result to
79; in particular x = 0 becomes 79. -/
theorem C2_leftwalker_wraps (w : World) (e : Entity) (p : Position)
    (hl : w.leftMovers.contains e = true)
    (hpos : Store.get w.positions e = some p) :
    Store.get (LeftWalker.run w).positions e =
      some { x := if p.x - 1 < 0 then 79 else p.x - 1, y := p.y } := by
  rw [leftWalker_positions, Store.get_update, hpos]
  simp [hl]

/-- C2 witness: the LeftMover entity 1 of the initial world, at x = 0,
has x = 79 after one LeftWalker run (wrap). -/
theorem C2_witness :
    initialWorld.leftMovers.contains 1 = true ∧
    Store.get initialWorld.positions 1 = some { x := 0, y := 20 } ∧
    Store.get (LeftWalker.run initialWorld).positions 1 =
      some { x := 79, y := 20 } := by
  refine ⟨by decide, by decide, ?_⟩
  have h := C2_leftwalker_wraps initialWorld 1 { x := 0, y := 20 }
    (by decide) (by decide)
  rw [h]
  decide

/-- C3: starting from the world built by main (one Player at (40,25), ten
LeftMovers at (0,20),(7,20),…,(63,20)), one tick with the move-right input
puts the Player at (41,25), decrements each LeftMover's x (the one at 0
wraps to 79), and the render join of Position and Renderable yields
exactly these 11 pairs. -/
theorem C3_end_to_end :
    renderJoin (tick (some Key.Right) initialWorld) =
      [ (0, { x := 41, y := 25 }, { glyph := 64, fg := Color.yellow, bg := Color.black }),
        (1, { x := 79, y := 20 }, { glyph := 1, fg := Color.red, bg := Color.black }),
        (2, { x := 6, y := 20 }, { glyph := 1, fg := Color.red, bg := Color.black }),
        (3, { x := 13, y := 20 }, { glyph := 1, fg := Color.red, bg := Color.black }),
        (4, { x := 20, y := 20 }, { glyph := 1, fg := Color.red, bg := Color.black }),
        (5, { x := 27, y := 20 }, { glyph := 1, fg := Color.red, bg := Color.black }),
        (6, { x := 34, y := 20 }, { glyph := 1, fg := Color.red, bg := Color.black }),
        (7, { x := 41, y := 20 }, { glyph := 1, fg := Color.red, bg := Color.black }),
        (8, { x := 48, y := 20 }, { glyph := 1, fg := Color.red, bg := Color.black }),
        (9, { x := 55, y := 20 }, { glyph := 1, fg := Color.red, bg := Color.black }),
        (10, { x := 62, y := 20 }, { glyph := 1, fg := Color.red, bg := Color.black }) ] := by
  decide

/-- C4: within every tick, the direct player-input mutation (if a movement
key is pressed) happens before the run of system 0 (LeftWalker, the only
registered system), and maintain comes strictly after all system events —
the instrumented tick computes the same world as tick and its event trace
is some (possibly empty) prefix of input events, then the system events in
registration order, then maintain, with nothing after it. -/
theorem C4_tick_ordering (key : Option Key) (w : World) :
    (tickT key w).1 = tick key w ∧
    ∃ pre, (tickT key w).2 = pre ++ [Ev.system 0, Ev.maintainEv] ∧
      ∀ ev ∈ pre, ev = Ev.input := by
  cases key with
  | none => exact ⟨rfl, [], rfl, by simp⟩
  | some k =>
    cases k with
    | Left => exact ⟨rfl, [Ev.input], rfl, by simp⟩
    | Right => exact ⟨rfl, [Ev.input], rfl, by simp⟩
    | Up => exact ⟨rfl, [Ev.input], rfl, by simp⟩
    | Down => exact ⟨rfl, [Ev.input], rfl, by simp⟩
    | Other c => exact ⟨rfl, [], rfl, by simp⟩

/-- C5: join correctness. For any two stores (of any component types),
the join contains (e, x, y) exactly when e is present in both stores with
those values (given the store key-uniqueness invariant on the first), so
it yields exactly the entities present in every joined store and none
missing from any; and for any nonempty family of stores, the n-ary join's
entity set is exactly the entities present in every one of them. -/
theorem C5_join_correct :
    (∀ (α β : Type) (a : Store α) (b : Store β) (e : Entity) (x : α) (y : β),
        Store.NodupKeys a →
        ((e, x, y) ∈ join2 a b ↔
          Store.get a e = some x ∧ Store.get b e = some y)) ∧
    (∀ (s : List Entity) (rest : List (List Entity)) (e : Entity),
        e ∈ joinKeys (s :: rest) ↔ e ∈ s ∧ ∀ t ∈ rest, e ∈ t) := by
  constructor
  · intro α β a b e x y ha
    rw [mem_join2_iff]
    constructor
    · rintro ⟨h1, h2⟩
      exact ⟨Store.get_of_mem ha h1, h2⟩
    · rintro ⟨h1, h2⟩
      exact ⟨Store.get_mem h1, h2⟩
  · intro s rest e
    exact mem_joinKeys_iff s rest e

/-- C5 witness: on concrete stores, (1, 5, true) is in the join exactly
because entity 1 carries 5 in the first store and true in the second. -/
theorem C5_witness :
    Store.NodupKeys ([(1, 5)] : Store Nat) ∧
    ((1, 5, true) ∈ join2 ([(1, 5)] : Store Nat)
        ([(1, true), (2, false)] : Store Bool) ↔
      Store.get ([(1, 5)] : Store Nat) 1 = some 5 ∧
      Store.get ([(1, true), (2, false)] : Store Bool) 1 = some true) :=
  ⟨by decide,
   C5_join_correct.1 Nat Bool [(1, 5)] [(1, true), (2, false)] 1 5 true (by decide)⟩

/-- C6: deferred destruction. Queuing an entity for destruction changes no
store (the entity stays fully queryable with all components intact), and
after maintain the entity is absent from every store. -/
theorem C6_deferred_destruction (w : World) (e : Entity) :
    ((w.queue_destroy e).positions = w.positions ∧
     (w.queue_destroy e).renderables = w.renderables ∧
     (w.queue_destroy e).leftMovers = w.leftMovers ∧
     (w.queue_destroy e).players = w.players) ∧
    (Store.get ((w.queue_destroy e).maintain).positions e = none ∧
     Store.get ((w.queue_destroy e).maintain).renderables e = none ∧
     Store.get ((w.queue_destroy e).maintain).leftMovers e = none ∧
     Store.get ((w.queue_destroy e).maintain).players e = none) := by
  have he : e ∈ (w.queue_destroy e).pendingDestroy := by
    simp [World.queue_destroy]
  exact ⟨⟨rfl, rfl, rfl, rfl⟩,
    Store.get_removeAll_of_mem _ _ _ he, Store.get_removeAll_of_mem _ _ _ he,
    Store.get_removeAll_of_mem _ _ _ he, Store.get_removeAll_of_mem _ _ _ he⟩

/-- C7: idempotent destruction. queue_destroy on an entity that is absent
from every store (already destroyed or never created), followed by
maintain, leaves every component store unchanged; both operations are
total functions, so no fault is raised. -/
theorem C7_idempotent_destroy (w : World) (e : Entity)
    (hq : w.pendingDestroy = [])
    (h1 : e ∉ Store.entities w.positions)
    (h2 : e ∉ Store.entities w.renderables)
    (h3 : e ∉ Store.entities w.leftMovers)
    (h4 : e ∉ Store.entities w.players) :
    ((w.queue_destroy e).maintain).positions = w.positions ∧
    ((w.queue_destroy e).maintain).renderables = w.renderables ∧
    ((w.queue_destroy e).maintain).leftMovers = w.leftMovers ∧
    ((w.queue_destroy e).maintain).players = w.players := by
  have key : ∀ {α : Type} (s : Store α), e ∉ Store.entities s →
      Store.removeAll s (w.pendingDestroy ++ [e]) = s := by
    intro α s hs
    rw [hq, Store.removeAll_snoc_of_not_mem s [] e hs, Store.removeAll_nil]
  exact ⟨key _ h1, key _ h2, key _ h3, key _ h4⟩

/-- C7 witness: destroying the never-created entity 42 of the initial
world and maintaining leaves all four stores unchanged. -/
theorem C7_witness :
    initialWorld.pendingDestroy = [] ∧
    42 ∉ Store.entities initialWorld.positions ∧
    42 ∉ Store.entities initialWorld.renderables ∧
    42 ∉ Store.entities initialWorld.leftMovers ∧
    42 ∉ Store.entities initialWorld.players ∧
    ((initialWorld.queue_destroy 42).maintain).positions = initialWorld.positions := by
  refine ⟨by decide, by decide, by decide, by decide, by decide, ?_⟩
  exact (C7_idempotent_destroy initialWorld 42 (by decide) (by decide)
    (by decide) (by decide) (by decide)).1

/-- C8: a missing key event, or any key other than the four recognized
movement keys, makes player_input perform no mutation at all: the whole
world, hence every component store, is unchanged. -/
theorem C8_unrecognized_no_mutation (w : World) (code : Nat) :
    player_input none w = w ∧ player_input (some (Key.Other code)) w = w :=
  ⟨rfl, rfl⟩

/-- C9: frame property of try_move_player — the Position of every entity
without a Player component is unchanged, and every store other than
Position (and the registry and destruction queue) is unchanged. -/
theorem C9_try_move_player_frame (w : World) (delta_x delta_y : Int) (e : Entity)
    (h : w.players.contains e = false) :
    Store.get (try_move_player delta_x delta_y w).positions e =
      Store.get w.positions e ∧
    (try_move_player delta_x delta_y w).renderables = w.renderables ∧
    (try_move_player delta_x delta_y w).leftMovers = w.leftMovers ∧
    (try_move_player delta_x delta_y w).players = w.players ∧
    (try_move_player delta_x delta_y w).alive = w.alive ∧
    (try_move_player delta_x delta_y w).pendingDestroy = w.pendingDestroy := by
  refine ⟨?_, rfl, rfl, rfl, rfl, rfl⟩
  rw [try_move_player_positions, Store.get_update]
  cases hg : Store.get w.positions e with
  | none => rfl
  | some p => simp [h]

/-- C9 witness: entity 1 (a LeftMover, not a Player) keeps its position
under try_move_player. -/
theorem C9_witness :
    initialWorld.players.contains 1 = false ∧
    Store.get (try_move_player 1 0 initialWorld).positions 1 =
      Store.get initialWorld.positions 1 :=
  ⟨by decide, (C9_try_move_player_frame initialWorld 1 0 1 (by decide)).1⟩

/-- C10: one LeftWalker run changes only the x field of Positions of
entities that also have LeftMover — Positions of entities without
LeftMover are untouched, every entity's y is preserved, and the
Renderable/LeftMover/Player stores are unchanged; moreover, starting from
the world built by main, after any number of ticks with any input
sequence every stored Position satisfies 0 ≤ x ≤ 79 and 0 ≤ y ≤ 49. -/
theorem C10_leftwalker_frame_and_invariant (w : World) (e : Entity)
    (keys : List (Option Key))
    (h : w.leftMovers.contains e = false) :
    Store.get (LeftWalker.run w).positions e = Store.get w.positions e ∧
    (∀ e2 p, Store.get (LeftWalker.run w).positions e2 = some p →
        ∃ q, Store.get w.positions e2 = some q ∧ p.y = q.y) ∧
    (LeftWalker.run w).renderables = w.renderables ∧
    (LeftWalker.run w).leftMovers = w.leftMovers ∧
    (LeftWalker.run w).players = w.players ∧
    InBounds (ticks keys initialWorld) := by
  refine ⟨?_, ?_, rfl, rfl, rfl, inBounds_ticks keys inBounds_initial⟩
  · rw [leftWalker_positions, Store.get_update]
    cases hg : Store.get w.positions e with
    | none => rfl
    | some p => simp [h]
  · intro e2 p hp
    rw [leftWalker_positions, Store.get_update] at hp
    cases hg : Store.get w.positions e2 with
    | none =>
      rw [hg] at hp
      simp at hp
    | some q =>
      rw [hg] at hp
      refine ⟨q, rfl, ?_⟩
      by_cases hc : w.leftMovers.contains e2 = true
      · simp only [Option.map_some', hc, if_true] at hp
        injection hp with hp2
        subst hp2
        rfl
      · simp only [Option.map_some', hc, if_false] at hp
        injection hp with hp2
        subst hp2
        rfl

/-- C10 witness: entity 0 (the Player, no LeftMover) keeps its position
under LeftWalker, and after one move-right tick from the initial world all
positions remain on the 80×50 screen. -/
theorem C10_witness :
    initialWorld.leftMovers.contains 0 = false ∧
    Store.get (LeftWalker.run initialWorld).positions 0 =
      Store.get initialWorld.positions 0 ∧
    InBounds (ticks [some Key.Right] initialWorld) :=
  ⟨by decide,
   (C10_leftwalker_frame_and_invariant initialWorld 0 [some Key.Right] (by decide)).1,
   (C10_leftwalker_frame_and_invariant initialWorld 0 [some Key.Right]
     (by decide)).2.2.2.2.2⟩

end KazooGame
